import Mathlib

/-!
Verification of the 3D wireframe figure renderer ("Representação de figuras
por computador", MICRO SISTEMAS Nov/1982, reimplemented in Go).

The Go sources are shallowly embedded: `float64` values are modelled as exact
rationals (`ℚ`), Go `int` as `Int`, Go strings as `String` (built messages) or
`List Char` (scanned color inputs, ASCII behaviour), fallible functions return
`Except`, and a run-time index-out-of-range panic is a distinguished outcome.
-/

namespace Figuras

/-- `types.Point3D` (pkg/types/types.go): X horizontal, Y depth, Z vertical,
plus an optional display name. -/
structure Point3D where
  X : ℚ
  Y : ℚ
  Z : ℚ
  Nome : String := ""
deriving Repr, DecidableEq

/-- `types.Point2D`: a projected screen point in pixels. -/
structure Point2D where
  X : ℚ
  Y : ℚ
deriving Repr, DecidableEq

/-- `types.Line`: a pair of 0-based indices into the figure's point list. -/
structure Line where
  P1 : Int
  P2 : Int
deriving Repr, DecidableEq

/-- `types.RenderSettings`: optional visual overrides from the YAML file.
Go models "absent" as the zero value for strings/numbers and as a nil
pointer (`Option`) for the two booleans. -/
structure RenderSettings where
  CanvasWidth : Int := 0
  CanvasHeight : Int := 0
  Background : String := ""
  LineColor : String := ""
  VertexColor : String := ""
  LineWidth : ℚ := 0
  ShowVertices : Option Bool := none
  ShowLabels : Option Bool := none
deriving Repr, DecidableEq

/-- `types.Camera`: observer position V, projection-plane distance R and
virtual-screen dimensions L1/L2. -/
structure Camera where
  Observer : Point3D
  Distance : ℚ
  Width : ℚ
  Height : ℚ
deriving Repr, DecidableEq

/-- `types.Figure`: name, vertices, edges, camera and optional render
settings. -/
structure Figure where
  Nome : String := ""
  Pontos : List Point3D
  Linhas : List Line
  Camera : Camera
  Render : Option RenderSettings := none
deriving Repr, DecidableEq

/-- `types.DefaultCamera` (pkg/types/types.go): observer at the origin,
distance 10, virtual screen 12.8 × 9.6. -/
def DefaultCamera : Camera :=
  { Observer := { X := 0, Y := 0, Z := 0 }
    Distance := 10
    Width := 12.8
    Height := 9.6 }

/-- `renderer.Renderer3D` (internal/renderer/renderer.go): screen size, the
camera, and the precomputed screen centre. -/
structure Renderer3D where
  width : Int
  height : Int
  camera : Camera
  centerX : ℚ
  centerY : ℚ
deriving Repr, DecidableEq

/-- `renderer.New`: builds a renderer with `centerX = width/2`,
`centerY = height/2`; the camera field is Go's zero value until `SetCamera`
is called. -/
def New (width height : Int) : Renderer3D :=
  { width := width
    height := height
    camera := { Observer := { X := 0, Y := 0, Z := 0 }, Distance := 0, Width := 0, Height := 0 }
    centerX := (width : ℚ) / 2
    centerY := (height : ℚ) / 2 }

/-- `(*Renderer3D).SetCamera`. -/
def SetCamera (r : Renderer3D) (camera : Camera) : Renderer3D :=
  { r with camera := camera }

/-- `(*Renderer3D).ProjectPoint` (renderer.go lines 119-162): translate into
observer-relative coordinates (world Z is the vertical axis, world Y the
depth), clamp the depth `pz` to a minimum of 0.1, apply the conic projection
`proj = p * R / pz`, then scale to screen pixels with the Y axis flipped. -/
def ProjectPoint (r : Renderer3D) (p : Point3D) : Point2D :=
  let px := p.X - r.camera.Observer.X
  let py := p.Z - r.camera.Observer.Z
  let pz0 := p.Y - r.camera.Observer.Y
  let pz := if pz0 ≤ 0.1 then (0.1 : ℚ) else pz0
  let projX := px * r.camera.Distance / pz
  let projY := py * r.camera.Distance / pz
  let scaleX := (r.width : ℚ) / r.camera.Width
  let scaleY := (r.height : ℚ) / r.camera.Height
  { X := r.centerX + projX * scaleX
    Y := r.centerY - projY * scaleY }

/-- The projection exactly as claim C1 words it: `px = p.X - observer.X`,
`py = p.Z - observer.Z`, `pz = p.Y - observer.Y`, clamp `pz` to 0.1 when
`pz ≤ 0.1`, `projX = px * Distance / pz`, `projY = py * Distance / pz`,
result `(w/2 + projX * (w / Width), h/2 - projY * (h / Height))`. -/
def claimProjectPoint (p : Point3D) (c : Camera) (w h : ℚ) : Point2D :=
  let px := p.X - c.Observer.X
  let py := p.Z - c.Observer.Z
  let pz0 := p.Y - c.Observer.Y
  let pz := if pz0 ≤ 0.1 then (0.1 : ℚ) else pz0
  let projX := px * c.Distance / pz
  let projY := py * c.Distance / pz
  { X := w / 2 + projX * (w / c.Width)
    Y := h / 2 - projY * (h / c.Height) }

/-- `renderer.colorRGB` (internal/renderer/config.go): RGB components
normalized to [0,1]. -/
structure colorRGB where
  R : ℚ := 0
  G : ℚ := 0
  B : ℚ := 0
deriving Repr, DecidableEq

/-- `renderer.RenderConfig` (config.go). -/
structure RenderConfig where
  Background : colorRGB
  LineColor : colorRGB
  LineWidth : ℚ
  VertexColor : colorRGB
  ShowVertices : Bool
  ShowLabels : Bool
deriving Repr, DecidableEq

/-- `renderer.DefaultRenderConfig` (config.go lines 57-75): white background,
black lines of width 1, dark-red vertices, vertex markers and labels off. -/
def DefaultRenderConfig : RenderConfig :=
  { Background := { R := 1, G := 1, B := 1 }
    LineColor := { R := 0, G := 0, B := 0 }
    LineWidth := 1.0
    VertexColor := { R := 0.8, G := 0, B := 0 }
    ShowVertices := false
    ShowLabels := false }

/-- Drawing primitives of the `gg` graphics context, recorded as a trace. -/
inductive DrawOp where
  | setRGB (r g b : ℚ)
  | clear
  | setLineWidth (w : ℚ)
  | moveTo (x y : ℚ)
  | lineTo (x y : ℚ)
  | stroke
  | drawCircle (x y rad : ℚ)
  | fill
  | drawString (s : String) (x y : ℚ)
deriving Repr, DecidableEq

/-- Go slice indexing with an `int` index: yields `none` exactly when Go
would panic with index out of range (negative index or index ≥ length). -/
def goIndex (xs : List α) (i : Int) : Option α :=
  if h : 0 ≤ i ∧ i.toNat < xs.length then some (xs.get ⟨i.toNat, h.2⟩) else none

/-- The edge-drawing loop of `RenderFigureWithConfig` (renderer.go lines
223-237): an edge with an index `≥ len(pontos2D)` is skipped (`continue`);
otherwise both endpoints are fetched by Go slice indexing — which panics on
a surviving negative index, modelled as `none` — and the segment is stroked
(`MoveTo`, `LineTo`, `Stroke`). -/
def drawEdges (pontos2D : List Point2D) : List Line → Option (List DrawOp)
  | [] => some []
  | linha :: rest =>
    if linha.P1 ≥ (pontos2D.length : Int) ∨ linha.P2 ≥ (pontos2D.length : Int) then
      drawEdges pontos2D rest
    else
      match goIndex pontos2D linha.P1, goIndex pontos2D linha.P2 with
      | some p1, some p2 =>
        (drawEdges pontos2D rest).map
          (fun ops => DrawOp.moveTo p1.X p1.Y :: DrawOp.lineTo p2.X p2.Y :: DrawOp.stroke :: ops)
      | _, _ => none

/-- The stroke operations emitted for one edge. -/
def strokeOps (p1 p2 : Point2D) : List DrawOp :=
  [DrawOp.moveTo p1.X p1.Y, DrawOp.lineTo p2.X p2.Y, DrawOp.stroke]

/-- An edge is in range when both indices lie in `[0, n-1]`. -/
def inRange (n : ℕ) (l : Line) : Bool :=
  decide (0 ≤ l.P1 ∧ l.P1 < (n : Int) ∧ 0 ≤ l.P2 ∧ l.P2 < (n : Int))

/-- The edge strokes produced by a list of edges: each edge whose endpoints
both resolve contributes its stroke, every other edge contributes nothing. -/
def edgeOpsFor (pontos2D : List Point2D) (linhas : List Line) : List DrawOp :=
  linhas.flatMap (fun linha =>
    match goIndex pontos2D linha.P1, goIndex pontos2D linha.P2 with
    | some p1, some p2 => strokeOps p1 p2
    | _, _ => [])

/-- The vertex/label section of `RenderFigureWithConfig` (renderer.go lines
240-276): with `ShowVertices` on, a disc per projected point, interleaving
label text (and the colour switches around it) for named points when
`ShowLabels` is also on; with only `ShowLabels` on, just the text for named
points; the line colour is restored at the end of either branch. -/
def vertexOps (cfg : RenderConfig) (pontos : List Point3D) (pontos2D : List Point2D) : List DrawOp :=
  if cfg.ShowVertices then
    DrawOp.setRGB cfg.VertexColor.R cfg.VertexColor.G cfg.VertexColor.B ::
      ((pontos2D.zip pontos).flatMap (fun pp =>
        DrawOp.drawCircle pp.1.X pp.1.Y 2 :: DrawOp.fill ::
          (if cfg.ShowLabels ∧ pp.2.Nome ≠ "" then
            [DrawOp.setRGB cfg.LineColor.R cfg.LineColor.G cfg.LineColor.B,
             DrawOp.drawString pp.2.Nome (pp.1.X + 5) (pp.1.Y - 5),
             DrawOp.setRGB cfg.VertexColor.R cfg.VertexColor.G cfg.VertexColor.B]
          else []))
        ++ [DrawOp.setRGB cfg.LineColor.R cfg.LineColor.G cfg.LineColor.B])
  else if cfg.ShowLabels then
    ((pontos2D.zip pontos).flatMap (fun pp =>
      if pp.2.Nome = "" then []
      else [DrawOp.setRGB cfg.LineColor.R cfg.LineColor.G cfg.LineColor.B,
            DrawOp.drawString pp.2.Nome (pp.1.X + 5) (pp.1.Y - 5)]))
      ++ [DrawOp.setRGB cfg.LineColor.R cfg.LineColor.G cfg.LineColor.B]
  else []

/-- Background fill and line-state setup at the start of a render
(renderer.go lines 205-210). -/
def setupOps (cfg : RenderConfig) : List DrawOp :=
  [DrawOp.setRGB cfg.Background.R cfg.Background.G cfg.Background.B,
   DrawOp.clear,
   DrawOp.setRGB cfg.LineColor.R cfg.LineColor.G cfg.LineColor.B,
   DrawOp.setLineWidth cfg.LineWidth]

/-- Outcome of a render call: a normal return carrying the trace of drawing
operations, an error return, or a Go runtime panic. -/
inductive RenderResult where
  | ok (ops : List DrawOp)
  | err (msg : String)
  | crash
deriving Repr, DecidableEq

/-- `(*Renderer3D).RenderFigureWithConfig` (renderer.go lines 195-279):
reject a figure with no points, fill the background and set the line state,
project every point once, stroke the edges, then draw optional
vertices/labels. -/
def RenderFigureWithConfig (r : Renderer3D) (figure : Figure) (cfg : RenderConfig) : RenderResult :=
  if figure.Pontos.length = 0 then .err "figura não possui pontos"
  else
    let pontos2D := figure.Pontos.map (ProjectPoint r)
    match drawEdges pontos2D figure.Linhas with
    | none => .crash
    | some edgeOps => .ok (setupOps cfg ++ edgeOps ++ vertexOps cfg figure.Pontos pontos2D)

/-- `(*Renderer3D).RenderFigure`: render with the default configuration. -/
def RenderFigure (r : Renderer3D) (figure : Figure) : RenderResult :=
  RenderFigureWithConfig r figure DefaultRenderConfig

/-- A figure with two points, one valid edge and one edge whose second index
is out of range above. -/
def figMixedEdges : Figure :=
  { Nome := "mixed"
    Pontos := [{ X := 0, Y := 5, Z := 0 }, { X := 1, Y := 5, Z := 1 }]
    Linhas := [{ P1 := 0, P2 := 1 }, { P1 := 0, P2 := 5 }]
    Camera := DefaultCamera }

/-- A one-point figure with an edge whose first index is negative. -/
def figNegEdge : Figure :=
  { Nome := "neg"
    Pontos := [{ X := 0, Y := 5, Z := 0 }]
    Linhas := [{ P1 := -1, P2 := 0 }]
    Camera := DefaultCamera }

/-- A one-point figure with an edge whose second index is negative. -/
def figNegEdge2 : Figure :=
  { Nome := "neg2"
    Pontos := [{ X := 0, Y := 5, Z := 0 }]
    Linhas := [{ P1 := 0, P2 := -2 }]
    Camera := DefaultCamera }

/-- A one-point figure with a single valid loop edge. -/
def figOnePoint : Figure :=
  { Nome := "one"
    Pontos := [{ X := 0, Y := 5, Z := 0 }]
    Linhas := [{ P1 := 0, P2 := 0 }]
    Camera := DefaultCamera }

/-- The error message for an out-of-range edge index (loader.go lines
105-113), Go format string
`linha %d referencia ponto P1 inválido: %d (deve estar entre 0 e %d)`
(and the same with `P2`). -/
def linhaErrMsg (i : ℕ) (campo : String) (idx : Int) (maxIdx : Int) : String :=
  "linha " ++ toString i ++ " referencia ponto " ++ campo ++ " inválido: " ++
    toString idx ++ " (deve estar entre 0 e " ++ toString maxIdx ++ ")"

/-- The index-checking loop of `validateFigure` (loader.go lines 103-115),
carrying the loop counter `i`; `n` is the number of points. -/
def checkLinhas (n : ℕ) : ℕ → List Line → Except String Unit
  | _, [] => .ok ()
  | i, linha :: rest =>
    if linha.P1 < 0 ∨ linha.P1 ≥ (n : Int) then
      .error (linhaErrMsg i "P1" linha.P1 ((n : Int) - 1))
    else if linha.P2 < 0 ∨ linha.P2 ≥ (n : Int) then
      .error (linhaErrMsg i "P2" linha.P2 ((n : Int) - 1))
    else checkLinhas n (i + 1) rest

/-- `core.validateFigure` (internal/core/loader.go lines 87-119): at least
one point, at least one edge, and every edge index in `[0, len(points)-1]`.
The Go function only reads the figure. -/
def validateFigure (figure : Figure) : Except String Unit :=
  if figure.Pontos.length = 0 then .error "figura deve ter pelo menos um ponto"
  else if figure.Linhas.length = 0 then .error "figura deve ter pelo menos uma linha"
  else checkLinhas figure.Pontos.length 0 figure.Linhas

/-- `validateFigure` with the figure state threaded explicitly: every Go
statement in the function only reads the figure, so the state component is
handed back as received. -/
def validateFigureSt (figure : Figure) : Except String Unit × Figure :=
  (validateFigure figure, figure)

/-- A one-point figure with an edge referencing index 1 = `len(points)`. -/
def figBadIdx : Figure :=
  { Nome := "badidx"
    Pontos := [{ X := 0, Y := 5, Z := 0 }]
    Linhas := [{ P1 := 0, P2 := 1 }]
    Camera := DefaultCamera }

/-- The camera-defaulting step of `core.LoadFigureFromYAML` (loader.go lines
56-61): a camera whose `Distance` is 0 is treated as unset and replaced by
`DefaultCamera` in its entirety. -/
def applyCameraDefault (figure : Figure) : Figure :=
  if figure.Camera.Distance = 0 then { figure with Camera := DefaultCamera } else figure

/-- `core.LoadFigureFromYAML` after the YAML bytes have been deserialized
(file reading and YAML decoding are external I/O): apply the camera default,
then validate, wrapping a validation error. -/
def loadFigurePostParse (figure : Figure) : Except String Figure :=
  match validateFigure (applyCameraDefault figure) with
  | .error e => .error ("figura inválida: " ++ e)
  | .ok _ => .ok (applyCameraDefault figure)

/-- A figure whose camera has `Distance = 0` but other fields set. -/
def figZeroCam : Figure :=
  { Nome := "zerocam"
    Pontos := [{ X := 0, Y := 5, Z := 0 }]
    Linhas := [{ P1 := 0, P2 := 0 }]
    Camera := { Observer := { X := 1, Y := 2, Z := 3 }, Distance := 0, Width := 7, Height := 8 } }

/-- Go `unicode.IsSpace` restricted to ASCII: the whitespace characters
`strings.TrimSpace` strips from the color inputs handled here. -/
def isGoSpace (c : Char) : Bool :=
  c = ' ' || c = '\t' || c = '\n' || c.toNat = 11 || c.toNat = 12 || c = '\r'

/-- `strings.TrimSpace` on ASCII text: drop leading and trailing
whitespace. -/
def trimSpace (s : List Char) : List Char :=
  ((s.dropWhile isGoSpace).reverse.dropWhile isGoSpace).reverse

/-- `strings.ToLower` on an ASCII character: map A-Z to a-z. -/
def toLowerChar (c : Char) : Char :=
  if 'A' ≤ c ∧ c ≤ 'Z' then Char.ofNat (c.toNat + 32) else c

/-- `strings.ToLower` on ASCII text. -/
def goToLower (s : List Char) : List Char := s.map toLowerChar

/-- `renderer.namedColors` (config.go lines 161-173) as a lookup function; a
Go map lookup with distinct keys, so the chain order is immaterial. -/
def lookupNamed (v : List Char) : Option colorRGB :=
  if v = ['w', 'h', 'i', 't', 'e'] then some { R := 1, G := 1, B := 1 }
  else if v = ['b', 'l', 'a', 'c', 'k'] then some { R := 0, G := 0, B := 0 }
  else if v = ['g', 'r', 'a', 'y'] then some { R := 0.5, G := 0.5, B := 0.5 }
  else if v = ['g', 'r', 'e', 'y'] then some { R := 0.5, G := 0.5, B := 0.5 }
  else if v = ['l', 'i', 'g', 'h', 't', 'g', 'r', 'a', 'y'] then
    some { R := 0.82, G := 0.82, B := 0.82 }
  else if v = ['l', 'i', 'g', 'h', 't', 'g', 'r', 'e', 'y'] then
    some { R := 0.82, G := 0.82, B := 0.82 }
  else if v = ['d', 'a', 'r', 'k', 'g', 'r', 'a', 'y'] then
    some { R := 0.25, G := 0.25, B := 0.25 }
  else if v = ['d', 'a', 'r', 'k', 'g', 'r', 'e', 'y'] then
    some { R := 0.25, G := 0.25, B := 0.25 }
  else none

/-- The value of a hexadecimal digit; `strconv.ParseUint` base 16 accepts
0-9, a-f and A-F. -/
def hexDigitVal (c : Char) : Option ℕ :=
  if '0' ≤ c ∧ c ≤ '9' then some (c.toNat - '0'.toNat)
  else if 'a' ≤ c ∧ c ≤ 'f' then some (c.toNat - 'a'.toNat + 10)
  else if 'A' ≤ c ∧ c ≤ 'F' then some (c.toNat - 'A'.toNat + 10)
  else none

/-- `strconv.ParseUint(s, 16, 8)`: a nonempty all-hex string whose value
fits in 8 bits. -/
def parseUint16of8 (s : List Char) : Option ℕ :=
  if s = [] then none
  else
    (s.foldl (fun acc c => acc.bind (fun n => (hexDigitVal c).map (fun d => 16 * n + d)))
        (some 0)).bind
      (fun n => if n ≤ 255 then some n else none)

/-- Floor of a nonnegative rational, from its reduced fraction. -/
def ratFloorNonneg (q : ℚ) : ℕ := q.num.toNat / q.den

/-- Go `math.Round`: round half away from zero. On either sign the shifted
argument of the floor is nonnegative. -/
def goRound (q : ℚ) : Int :=
  if q < 0 then -(ratFloorNonneg (-q + 1 / 2) : Int) else (ratFloorNonneg (q + 1 / 2) : Int)

/-- The normalization of `parseHexComponent`: divide the 8-bit value by 255
and round to 3 decimal places. -/
def hexNorm (v : ℕ) : ℚ :=
  (goRound ((v : ℚ) / 255 * 1000) : ℚ) / 1000

/-- `renderer.parseHexComponent` (config.go lines 263-273): parse a 2-digit
hex component and normalize it to [0,1], rounded to 3 decimals. -/
def parseHexComponent (component : List Char) : Option ℚ :=
  (parseUint16of8 component).map hexNorm

/-- The `#`-stripping step of `parseColor` (config.go lines 206-208). -/
def stripHash (v : List Char) : List Char :=
  if v.head? = some '#' then v.tail else v

/-- The short-form expansion of `parseColor` (config.go lines 211-219): a
3-character string has each character duplicated. -/
def expand3 (v : List Char) : List Char :=
  if v.length = 3 then v.flatMap (fun ch => [ch, ch]) else v

/-- The hexadecimal stage of `parseColor` (config.go lines 203-244): strip
an optional leading `#`, expand the 3-character form, reject any other
length than 6, then parse the three 2-character components. Go surfaces the
`strconv` error of the first bad component; that error's text is modelled as
"strconv". -/
def parseColorHex (v : List Char) (value : List Char) : Except String colorRGB :=
  let v2 := expand3 (stripHash v)
  if v2.length ≠ 6 then .error ("formato de cor inválido: " ++ String.mk value)
  else
    match parseHexComponent (v2.take 2), parseHexComponent ((v2.drop 2).take 2),
        parseHexComponent ((v2.drop 4).take 2) with
    | some r, some g, some b => .ok { R := r, G := g, B := b }
    | _, _, _ => .error "strconv"

/-- `renderer.parseColor` (config.go lines 190-245) over the characters of
the Go string (ASCII behaviour): lowercase then trim, reject the empty
result, try the named colors, then fall back to hexadecimal parsing. -/
def parseColorL (value : List Char) : Except String colorRGB :=
  let v := trimSpace (goToLower value)
  if v = [] then .error "valor vazio"
  else
    match lookupNamed v with
    | some col => .ok col
    | none => parseColorHex v value

/-- `renderer.parseColor` on a Lean string. -/
def parseColorS (value : String) : Except String colorRGB :=
  parseColorL value.toList

/-- One colour-override step of `ConfigFromFigure` (config.go lines
108-133): an empty setting keeps the current config; otherwise the colour is
parsed into the given field, a parse error being wrapped with the field's
label. -/
def applyColorSetting (setting : String) (label : String)
    (set : colorRGB → RenderConfig → RenderConfig) (cfg : RenderConfig) :
    Except String RenderConfig :=
  if setting = "" then .ok cfg
  else
    match parseColorS setting with
    | .error e => .error (label ++ e)
    | .ok col => .ok (set col cfg)

/-- The line-width override (config.go lines 138-140): applied only when
positive. -/
def applyLineWidth (s : RenderSettings) (cfg : RenderConfig) : RenderConfig :=
  if s.LineWidth > 0 then { cfg with LineWidth := s.LineWidth } else cfg

/-- The tri-state `ShowVertices` override (config.go lines 145-147). -/
def applyShowVertices (s : RenderSettings) (cfg : RenderConfig) : RenderConfig :=
  match s.ShowVertices with
  | some b => { cfg with ShowVertices := b }
  | none => cfg

/-- The tri-state `ShowLabels` override (config.go lines 149-151). -/
def applyShowLabels (s : RenderSettings) (cfg : RenderConfig) : RenderConfig :=
  match s.ShowLabels with
  | some b => { cfg with ShowLabels := b }
  | none => cfg

/-- `renderer.ConfigFromFigure` (config.go lines 95-154): start from the
defaults, return them for a nil figure or nil settings, otherwise apply the
three colour overrides, the line width and the two tri-state booleans in the
source's order. -/
def ConfigFromFigure (fig : Option Figure) : Except String RenderConfig :=
  match fig with
  | none => .ok DefaultRenderConfig
  | some f =>
    match f.Render with
    | none => .ok DefaultRenderConfig
    | some settings =>
      match applyColorSetting settings.Background "cor de fundo inválida: "
          (fun col cfg => { cfg with Background := col }) DefaultRenderConfig with
      | .error e => .error e
      | .ok cfg1 =>
        match applyColorSetting settings.LineColor "cor da linha inválida: "
            (fun col cfg => { cfg with LineColor := col }) cfg1 with
        | .error e => .error e
        | .ok cfg2 =>
          match applyColorSetting settings.VertexColor "cor dos vértices inválida: "
              (fun col cfg => { cfg with VertexColor := col }) cfg2 with
          | .error e => .error e
          | .ok cfg3 =>
            .ok (applyShowLabels settings (applyShowVertices settings (applyLineWidth settings cfg3)))

/-- The lowercase hex digit character of a value below 16. -/
def hexDigit (d : ℕ) : Char :=
  if d < 10 then Char.ofNat ('0'.toNat + d) else Char.ofNat ('a'.toNat + d - 10)

/-- The 2-digit lowercase hex spelling of an 8-bit value. -/
def hexPair (v : ℕ) : List Char :=
  [hexDigit (v / 16), hexDigit (v % 16)]

/-- The characters of the color string `#RRGGBB` for byte values r, g, b. -/
def mkHexInput (r g b : ℕ) : List Char :=
  '#' :: (hexPair r ++ hexPair g ++ hexPair b)

/-- The hex-digit folding step of `parseUint16of8`. -/
def hexStep (acc : Option ℕ) (c : Char) : Option ℕ :=
  acc.bind (fun n => (hexDigitVal c).map (fun d => 16 * n + d))

/-- Concrete render settings: negative line width, explicit true for
vertices, labels left unspecified. -/
def settingsW : RenderSettings :=
  { LineWidth := -2, ShowVertices := some true, ShowLabels := none }

/-- A figure carrying `settingsW`. -/
def figW5 : Figure :=
  { Nome := "cfg"
    Pontos := []
    Linhas := []
    Camera := DefaultCamera
    Render := some settingsW }

/-- C1: For every point, camera and screen dimensions, `ProjectPoint` returns
exactly the conic-perspective point described by the spec formula: translate
to observer-relative coordinates with world Z vertical and world Y as depth,
clamp `pz` to 0.1, multiply by `Distance / pz`, and map to screen space with
the vertical axis flipped around the screen centre. -/
theorem projectPoint_matches_spec_formula (p : Point3D) (c : Camera) (w h : Int) :
    ProjectPoint (SetCamera (New w h) c) p = claimProjectPoint p c (w : ℚ) (h : ℚ) := by
  simp [ProjectPoint, SetCamera, New, claimProjectPoint]

/-- C8: Projection is linear in the camera distance: with the point, the
observer and hence the clamped depth `pz` fixed, doubling `camera.Distance`
doubles the offset of the projected screen point from the screen centre
`(w/2, h/2)` in both coordinates. -/
theorem projection_linear_in_distance (p : Point3D) (c : Camera) (w h : Int) :
    (ProjectPoint (SetCamera (New w h) { c with Distance := 2 * c.Distance }) p).X - (w : ℚ) / 2
      = 2 * ((ProjectPoint (SetCamera (New w h) c) p).X - (w : ℚ) / 2) ∧
    (ProjectPoint (SetCamera (New w h) { c with Distance := 2 * c.Distance }) p).Y - (h : ℚ) / 2
      = 2 * ((ProjectPoint (SetCamera (New w h) c) p).Y - (h : ℚ) / 2) := by
  constructor <;>
    · simp only [ProjectPoint, SetCamera, New]
      ring

/-- When every edge index is nonnegative the edge loop cannot panic: it
draws exactly the in-range edges, skipping the rest. -/
theorem drawEdges_eq_of_nonneg (pontos2D : List Point2D) (linhas : List Line)
    (h : ∀ l ∈ linhas, 0 ≤ l.P1 ∧ 0 ≤ l.P2) :
    drawEdges pontos2D linhas =
      some (edgeOpsFor pontos2D (linhas.filter (inRange pontos2D.length))) := by
  induction linhas with
  | nil => simp [drawEdges, edgeOpsFor]
  | cons linha rest ih =>
    have hl := h linha (List.mem_cons_self _ _)
    have hrest := fun l hm => h l (List.mem_cons_of_mem _ hm)
    by_cases hskip : linha.P1 ≥ (pontos2D.length : Int) ∨ linha.P2 ≥ (pontos2D.length : Int)
    · have hnr : inRange pontos2D.length linha = false := by
        simp only [inRange, decide_eq_false_iff_not]
        omega
      rw [drawEdges, if_pos hskip, ih hrest]
      simp [List.filter_cons, hnr]
    · have hb1 : 0 ≤ linha.P1 ∧ linha.P1.toNat < pontos2D.length := by
        constructor
        · exact hl.1
        · omega
      have hb2 : 0 ≤ linha.P2 ∧ linha.P2.toNat < pontos2D.length := by
        constructor
        · exact hl.2
        · omega
      have hp1 : goIndex pontos2D linha.P1 = some (pontos2D.get ⟨linha.P1.toNat, hb1.2⟩) := by
        unfold goIndex
        exact dif_pos hb1
      have hp2 : goIndex pontos2D linha.P2 = some (pontos2D.get ⟨linha.P2.toNat, hb2.2⟩) := by
        unfold goIndex
        exact dif_pos hb2
      have hr : inRange pontos2D.length linha = true := by
        simp only [inRange, decide_eq_true_eq]
        omega
      rw [drawEdges, if_neg hskip, hp1, hp2, ih hrest]
      simp [List.filter_cons, hr, edgeOpsFor, strokeOps, hp1, hp2]

/-- C2 (amended): for a figure with at least one point whose edge indices are
all nonnegative, and which contains an edge with an index out of range above,
`RenderFigureWithConfig` completes without error: the out-of-range edges are
silently skipped and exactly the background/setup, the strokes of the edges
whose both indices are in range, and the configured vertex/label operations
are drawn. (The original claim also covered negative indices, where the code
panics instead; see the counterexample.) -/
theorem render_skips_out_of_range_edges (r : Renderer3D) (figure : Figure) (cfg : RenderConfig)
    (hnp : figure.Pontos ≠ [])
    (hnonneg : ∀ l ∈ figure.Linhas, 0 ≤ l.P1 ∧ 0 ≤ l.P2)
    (_hout : ∃ l ∈ figure.Linhas, inRange figure.Pontos.length l = false) :
    RenderFigureWithConfig r figure cfg =
      .ok (setupOps cfg ++
        edgeOpsFor (figure.Pontos.map (ProjectPoint r))
          (figure.Linhas.filter (inRange figure.Pontos.length)) ++
        vertexOps cfg figure.Pontos (figure.Pontos.map (ProjectPoint r))) := by
  have hlen : ¬ figure.Pontos.length = 0 := fun h => hnp (List.length_eq_zero.mp h)
  have hd := drawEdges_eq_of_nonneg (figure.Pontos.map (ProjectPoint r)) figure.Linhas hnonneg
  rw [List.length_map] at hd
  simp only [RenderFigureWithConfig]
  rw [if_neg hlen, hd]

/-- C2 witness: the amended theorem applied to `figMixedEdges`. -/
theorem render_skips_out_of_range_edges_witness :
    RenderFigureWithConfig (SetCamera (New 800 600) DefaultCamera) figMixedEdges DefaultRenderConfig =
      .ok (setupOps DefaultRenderConfig ++
        edgeOpsFor (figMixedEdges.Pontos.map (ProjectPoint (SetCamera (New 800 600) DefaultCamera)))
          (figMixedEdges.Linhas.filter (inRange figMixedEdges.Pontos.length)) ++
        vertexOps DefaultRenderConfig figMixedEdges.Pontos
          (figMixedEdges.Pontos.map (ProjectPoint (SetCamera (New 800 600) DefaultCamera)))) :=
  render_skips_out_of_range_edges _ figMixedEdges _ (by decide) (by decide) (by decide)

/-- C2 counterexample: `figNegEdge` has a point and an out-of-range edge
(index −1), yet the render call does not complete without error — it hits a
Go runtime panic (index out of range), because the safety check in the edge
loop only tests the upper bound. -/
theorem render_negative_index_crashes :
    figNegEdge.Pontos ≠ [] ∧
    (∃ l ∈ figNegEdge.Linhas, inRange figNegEdge.Pontos.length l = false) ∧
    RenderFigureWithConfig (SetCamera (New 800 600) DefaultCamera) figNegEdge DefaultRenderConfig =
      .crash := by
  decide

/-- C4 (amended): `RenderFigureWithConfig` returns an error (the Go `error`
return) if and only if the figure's point list is empty; and every figure
with at least one point whose edge indices are all nonnegative renders
successfully. (The original claim promised success for every figure with at
least one point, but an edge with a negative index panics instead of
returning; see the counterexample.) -/
theorem render_err_iff_no_points (r : Renderer3D) (figure : Figure) (cfg : RenderConfig) :
    ((∃ m, RenderFigureWithConfig r figure cfg = .err m) ↔ figure.Pontos = []) ∧
    (figure.Pontos ≠ [] → (∀ l ∈ figure.Linhas, 0 ≤ l.P1 ∧ 0 ≤ l.P2) →
      ∃ ops, RenderFigureWithConfig r figure cfg = .ok ops) := by
  constructor
  · constructor
    · rintro ⟨m, hm⟩
      by_contra hne
      have hlen : ¬ figure.Pontos.length = 0 := fun h => hne (List.length_eq_zero.mp h)
      simp only [RenderFigureWithConfig] at hm
      rw [if_neg hlen] at hm
      split at hm
      · exact RenderResult.noConfusion hm
      · exact RenderResult.noConfusion hm
    · intro he
      refine ⟨"figura não possui pontos", ?_⟩
      simp only [RenderFigureWithConfig]
      rw [if_pos (by simp [he])]
  · intro hne hnonneg
    have hlen : ¬ figure.Pontos.length = 0 := fun h => hne (List.length_eq_zero.mp h)
    have hd := drawEdges_eq_of_nonneg (figure.Pontos.map (ProjectPoint r)) figure.Linhas hnonneg
    refine ⟨setupOps cfg ++
      edgeOpsFor (figure.Pontos.map (ProjectPoint r))
        (figure.Linhas.filter (inRange (figure.Pontos.map (ProjectPoint r)).length)) ++
      vertexOps cfg figure.Pontos (figure.Pontos.map (ProjectPoint r)), ?_⟩
    simp only [RenderFigureWithConfig]
    rw [if_neg hlen, hd]

/-- C4 witness: the amended theorem applied to `figOnePoint`. -/
theorem render_err_iff_no_points_witness :
    ∃ ops, RenderFigureWithConfig (SetCamera (New 800 600) DefaultCamera) figOnePoint
      DefaultRenderConfig = .ok ops :=
  (render_err_iff_no_points (SetCamera (New 800 600) DefaultCamera) figOnePoint
    DefaultRenderConfig).2 (by decide) (by decide)

/-- C4 counterexample: `figNegEdge2` has a point, yet the render call neither
succeeds nor returns an error — it hits a Go runtime panic on the negative
edge index. -/
theorem render_nonempty_points_can_crash :
    figNegEdge2.Pontos ≠ [] ∧
    RenderFigureWithConfig (SetCamera (New 800 600) DefaultCamera) figNegEdge2 DefaultRenderConfig =
      .crash := by
  decide

/-- The index-checking loop succeeds exactly when every edge's two indices
are in `[0, n-1]`. -/
theorem checkLinhas_ok_iff (n : ℕ) (i : ℕ) (ls : List Line) :
    checkLinhas n i ls = .ok () ↔
      ∀ l ∈ ls, 0 ≤ l.P1 ∧ l.P1 < (n : Int) ∧ 0 ≤ l.P2 ∧ l.P2 < (n : Int) := by
  induction ls generalizing i with
  | nil => simp [checkLinhas]
  | cons linha rest ih =>
    rw [checkLinhas]
    by_cases h1 : linha.P1 < 0 ∨ linha.P1 ≥ (n : Int)
    · rw [if_pos h1]
      constructor
      · intro h
        exact Except.noConfusion h
      · intro hall
        exact absurd (hall linha (List.mem_cons_self _ _)) (by omega)
    · rw [if_neg h1]
      by_cases h2 : linha.P2 < 0 ∨ linha.P2 ≥ (n : Int)
      · rw [if_pos h2]
        constructor
        · intro h
          exact Except.noConfusion h
        · intro hall
          exact absurd (hall linha (List.mem_cons_self _ _)) (by omega)
      · rw [if_neg h2, ih]
        constructor
        · intro hrest l hm
          rcases List.mem_cons.mp hm with rfl | hm2
          · omega
          · exact hrest l hm2
        · intro hall l hm
          exact hall l (List.mem_cons_of_mem _ hm)

/-- When the index-checking loop fails, the error message embeds the
offending index value and the top of the valid range. -/
theorem checkLinhas_error (n : ℕ) (i : ℕ) (ls : List Line) (e : String)
    (h : checkLinhas n i ls = .error e) :
    ∃ idx : Int,
      (∃ l ∈ ls, (l.P1 = idx ∨ l.P2 = idx) ∧ (idx < 0 ∨ idx ≥ (n : Int))) ∧
      ∃ s, e = s ++ toString idx ++ " (deve estar entre 0 e " ++
        toString ((n : Int) - 1) ++ ")" := by
  induction ls generalizing i with
  | nil => exact Except.noConfusion h
  | cons linha rest ih =>
    rw [checkLinhas] at h
    by_cases h1 : linha.P1 < 0 ∨ linha.P1 ≥ (n : Int)
    · rw [if_pos h1] at h
      cases h
      exact ⟨linha.P1, ⟨linha, List.mem_cons_self _ _, Or.inl rfl, h1⟩,
        "linha " ++ toString i ++ " referencia ponto " ++ "P1" ++ " inválido: ", rfl⟩
    · rw [if_neg h1] at h
      by_cases h2 : linha.P2 < 0 ∨ linha.P2 ≥ (n : Int)
      · rw [if_pos h2] at h
        cases h
        exact ⟨linha.P2, ⟨linha, List.mem_cons_self _ _, Or.inr rfl, h2⟩,
          "linha " ++ toString i ++ " referencia ponto " ++ "P2" ++ " inválido: ", rfl⟩
      · rw [if_neg h2] at h
        obtain ⟨idx, ⟨l, hm, hl⟩, hs⟩ := ih (i + 1) h
        exact ⟨idx, ⟨l, List.mem_cons_of_mem _ hm, hl⟩, hs⟩

/-- C3: `validateFigure` returns an error if and only if the figure has zero
points, or zero edges, or some edge index outside `[0, pointCount-1]`; in
the index case the error message embeds the offending index value and the
valid range, and the figure is never modified (the function only reads its
argument; the threaded state comes back unchanged). -/
theorem validateFigure_spec (figure : Figure) :
    ((∃ e, validateFigure figure = .error e) ↔
      (figure.Pontos = [] ∨ figure.Linhas = [] ∨
        ∃ l ∈ figure.Linhas,
          l.P1 < 0 ∨ l.P1 ≥ (figure.Pontos.length : Int) ∨
          l.P2 < 0 ∨ l.P2 ≥ (figure.Pontos.length : Int))) ∧
    (figure.Pontos ≠ [] → figure.Linhas ≠ [] →
      ∀ e, validateFigure figure = .error e →
        ∃ idx : Int,
          (∃ l ∈ figure.Linhas, (l.P1 = idx ∨ l.P2 = idx) ∧
            (idx < 0 ∨ idx ≥ (figure.Pontos.length : Int))) ∧
          ∃ s, e = s ++ toString idx ++ " (deve estar entre 0 e " ++
            toString ((figure.Pontos.length : Int) - 1) ++ ")") ∧
    (validateFigureSt figure).2 = figure := by
  refine ⟨?_, ?_, rfl⟩
  · by_cases hp : figure.Pontos.length = 0
    · unfold validateFigure
      rw [if_pos hp]
      constructor
      · intro _
        exact Or.inl (List.length_eq_zero.mp hp)
      · intro _
        exact ⟨_, rfl⟩
    · by_cases hli : figure.Linhas.length = 0
      · unfold validateFigure
        rw [if_neg hp, if_pos hli]
        constructor
        · intro _
          exact Or.inr (Or.inl (List.length_eq_zero.mp hli))
        · intro _
          exact ⟨_, rfl⟩
      · unfold validateFigure
        rw [if_neg hp, if_neg hli]
        cases hc : checkLinhas figure.Pontos.length 0 figure.Linhas with
        | error e =>
          constructor
          · intro _
            obtain ⟨idx, ⟨l, hm, hor, hbad⟩, _⟩ := checkLinhas_error _ _ _ _ hc
            refine Or.inr (Or.inr ⟨l, hm, ?_⟩)
            rcases hor with rfl | rfl
            · omega
            · omega
          · intro _
            exact ⟨e, rfl⟩
        | ok u =>
          cases u
          constructor
          · rintro ⟨e, he⟩
            exact Except.noConfusion he
          · intro hr
            rcases hr with h | h | ⟨l, hm, hbad⟩
            · exact absurd (by simp [h]) hp
            · exact absurd (by simp [h]) hli
            · have := (checkLinhas_ok_iff _ _ _).mp hc l hm
              omega
  · intro hp hli e he
    have hp2 : ¬ figure.Pontos.length = 0 := fun h => hp (List.length_eq_zero.mp h)
    have hli2 : ¬ figure.Linhas.length = 0 := fun h => hli (List.length_eq_zero.mp h)
    unfold validateFigure at he
    rw [if_neg hp2, if_neg hli2] at he
    exact checkLinhas_error _ _ _ _ he

/-- C3 witness: `validateFigure_spec` at `figBadIdx`, whose single edge
references index 1 while only index 0 is valid; the error message embeds the
index 1 and the range bound 0. -/
theorem validateFigure_spec_witness :
    ∃ idx : Int,
      (∃ l ∈ figBadIdx.Linhas, (l.P1 = idx ∨ l.P2 = idx) ∧
        (idx < 0 ∨ idx ≥ (figBadIdx.Pontos.length : Int))) ∧
      ∃ s, "linha 0 referencia ponto P2 inválido: 1 (deve estar entre 0 e 0)" =
        s ++ toString idx ++ " (deve estar entre 0 e " ++
          toString ((figBadIdx.Pontos.length : Int) - 1) ++ ")" :=
  (validateFigure_spec figBadIdx).2.1 (by decide) (by decide)
    "linha 0 referencia ponto P2 inválido: 1 (deve estar entre 0 e 0)" rfl

/-- C9: when loading, a camera whose `Distance` equals 0 is replaced in its
entirety by the documented default camera — observer at the origin, distance
10, width 12.8, height 9.6 — while the points and edges are untouched; a
camera with nonzero `Distance` leaves the figure completely unchanged; and a
successful load returns exactly the camera-defaulted figure. -/
theorem camera_defaulting (figure : Figure) :
    (figure.Camera.Distance = 0 →
      (applyCameraDefault figure).Camera = DefaultCamera ∧
      (applyCameraDefault figure).Pontos = figure.Pontos ∧
      (applyCameraDefault figure).Linhas = figure.Linhas ∧
      DefaultCamera = { Observer := { X := 0, Y := 0, Z := 0, Nome := "" }
                        Distance := 10, Width := 12.8, Height := 9.6 }) ∧
    (figure.Camera.Distance ≠ 0 → applyCameraDefault figure = figure) ∧
    (∀ g, loadFigurePostParse figure = .ok g → g = applyCameraDefault figure) := by
  refine ⟨?_, ?_, ?_⟩
  · intro h0
    unfold applyCameraDefault
    rw [if_pos h0]
    exact ⟨rfl, rfl, rfl, rfl⟩
  · intro h0
    unfold applyCameraDefault
    rw [if_neg h0]
  · intro g hg
    unfold loadFigurePostParse at hg
    cases hv : validateFigure (applyCameraDefault figure) with
    | error e =>
      rw [hv] at hg
      exact Except.noConfusion hg
    | ok u =>
      cases u
      rw [hv] at hg
      cases hg
      rfl

/-- C9 witness: `camera_defaulting` at `figZeroCam`. -/
theorem camera_defaulting_witness :
    (applyCameraDefault figZeroCam).Camera = DefaultCamera ∧
    (applyCameraDefault figZeroCam).Pontos = figZeroCam.Pontos ∧
    (applyCameraDefault figZeroCam).Linhas = figZeroCam.Linhas ∧
    DefaultCamera = { Observer := { X := 0, Y := 0, Z := 0, Nome := "" }
                      Distance := 10, Width := 12.8, Height := 9.6 } :=
  (camera_defaulting figZeroCam).1 (by decide)

/-- On a nonnegative rational the hand-rolled floor agrees with `⌊·⌋`. -/
theorem ratFloorNonneg_eq_floor (q : ℚ) (h : 0 ≤ q) : (ratFloorNonneg q : Int) = ⌊q⌋ := by
  have hnum : 0 ≤ q.num := Rat.num_nonneg.mpr h
  rw [Rat.floor_def]
  unfold ratFloorNonneg
  rw [Int.ofNat_tdiv, Int.toNat_of_nonneg hnum]
  exact Int.tdiv_eq_ediv hnum (by positivity)

/-- On a nonnegative argument `goRound` is the floor of the shifted value. -/
theorem goRound_eq_floor (q : ℚ) (h : 0 ≤ q) : goRound q = ⌊q + 1 / 2⌋ := by
  unfold goRound
  rw [if_neg (not_lt.mpr h), ratFloorNonneg_eq_floor _ (by linarith)]

/-- Scaling a normalized component back to 0-255 and rounding recovers the
original byte value exactly. -/
theorem goRound_hexNorm_roundtrip (v : ℕ) (_hv : v < 256) :
    goRound (hexNorm v * 255) = v := by
  have hx : (0 : ℚ) ≤ (v : ℚ) / 255 * 1000 := by positivity
  have hn0 : (0 : Int) ≤ ⌊(v : ℚ) / 255 * 1000 + 1 / 2⌋ := by
    rw [Int.floor_nonneg]
    linarith
  have hhex : hexNorm v = (⌊(v : ℚ) / 255 * 1000 + 1 / 2⌋ : ℚ) / 1000 := by
    unfold hexNorm
    rw [goRound_eq_floor _ hx]
  have hn1 : ((⌊(v : ℚ) / 255 * 1000 + 1 / 2⌋ : Int) : ℚ) ≤ (v : ℚ) / 255 * 1000 + 1 / 2 :=
    Int.floor_le _
  have hn2 : (v : ℚ) / 255 * 1000 + 1 / 2 < (⌊(v : ℚ) / 255 * 1000 + 1 / 2⌋ : Int) + 1 :=
    Int.lt_floor_add_one _
  have hq0 : (0 : ℚ) ≤ (⌊(v : ℚ) / 255 * 1000 + 1 / 2⌋ : Int) / 1000 * 255 := by
    have hcast : (0 : ℚ) ≤ ((⌊(v : ℚ) / 255 * 1000 + 1 / 2⌋ : Int) : ℚ) := by
      exact_mod_cast hn0
    have := div_nonneg hcast (by norm_num : (0 : ℚ) ≤ 1000)
    linarith
  rw [hhex, goRound_eq_floor _ hq0, Int.floor_eq_iff]
  constructor
  · push_cast
    linarith
  · push_cast
    linarith

/-- `hexDigit` inverts `hexDigitVal` on values below 16. -/
theorem hexDigitVal_hexDigit : ∀ d < 16, hexDigitVal (hexDigit d) = some d := by decide

/-- Lowercase hex digit characters are fixed by `toLowerChar`. -/
theorem toLowerChar_hexDigit : ∀ d < 16, toLowerChar (hexDigit d) = hexDigit d := by decide

/-- Hex digit characters are not whitespace. -/
theorem isGoSpace_hexDigit : ∀ d < 16, isGoSpace (hexDigit d) = false := by decide

/-- Cons cells with different heads are different lists. -/
theorem ne_cons_of_head_ne {a b : Char} {t1 t2 : List Char} (h : ¬ a = b) :
    ¬ (a :: t1 = b :: t2) := by
  intro hc
  exact h (by injection hc)

/-- No named colour starts with `#`, so the name lookup fails on any
`#`-prefixed string. -/
theorem lookupNamed_hash (rest : List Char) : lookupNamed ('#' :: rest) = none := by
  unfold lookupNamed
  rw [if_neg (ne_cons_of_head_ne (by decide)), if_neg (ne_cons_of_head_ne (by decide)),
    if_neg (ne_cons_of_head_ne (by decide)), if_neg (ne_cons_of_head_ne (by decide)),
    if_neg (ne_cons_of_head_ne (by decide)), if_neg (ne_cons_of_head_ne (by decide)),
    if_neg (ne_cons_of_head_ne (by decide)), if_neg (ne_cons_of_head_ne (by decide))]

/-- `trimSpace` is the identity on a list with non-space first and last
characters. -/
theorem trimSpace_of_nonspace_ends (a z : Char) (mid : List Char)
    (ha : isGoSpace a = false) (hz : isGoSpace z = false) :
    trimSpace (a :: (mid ++ [z])) = a :: (mid ++ [z]) := by
  unfold trimSpace
  rw [List.dropWhile_cons]
  simp only [ha, Bool.false_eq_true, if_false]
  rw [List.reverse_cons, List.reverse_append]
  simp only [List.reverse_cons, List.reverse_nil, List.nil_append, List.singleton_append,
    List.cons_append, List.dropWhile_cons, hz, Bool.false_eq_true, if_false]
  simp [List.reverse_append]

/-- `goToLower` fixes the characters of `#RRGGBB` inputs. -/
theorem goToLower_mkHexInput (r g b : ℕ) (hr : r < 256) (hg : g < 256) (hb : b < 256) :
    goToLower (mkHexInput r g b) = mkHexInput r g b := by
  have e1 := toLowerChar_hexDigit (r / 16) (by omega)
  have e2 := toLowerChar_hexDigit (r % 16) (by omega)
  have e3 := toLowerChar_hexDigit (g / 16) (by omega)
  have e4 := toLowerChar_hexDigit (g % 16) (by omega)
  have e5 := toLowerChar_hexDigit (b / 16) (by omega)
  have e6 := toLowerChar_hexDigit (b % 16) (by omega)
  have e0 : toLowerChar '#' = '#' := by decide
  simp [goToLower, mkHexInput, hexPair, e0, e1, e2, e3, e4, e5, e6]

/-- `trimSpace` fixes `#RRGGBB` inputs. -/
theorem trimSpace_mkHexInput (r g b : ℕ) (_hr : r < 256) (_hg : g < 256) (_hb : b < 256) :
    trimSpace (mkHexInput r g b) = mkHexInput r g b := by
  have hshape : mkHexInput r g b =
      '#' :: ([hexDigit (r / 16), hexDigit (r % 16), hexDigit (g / 16), hexDigit (g % 16),
        hexDigit (b / 16)] ++ [hexDigit (b % 16)]) := by
    simp [mkHexInput, hexPair]
  rw [hshape]
  exact trimSpace_of_nonspace_ends _ _ _ (by decide) (isGoSpace_hexDigit (b % 16) (by omega))

/-- `strconv.ParseUint` recovers the byte value from its 2-digit hex
spelling. -/
theorem parseUint16of8_hexPair (v : ℕ) (h : v < 256) :
    parseUint16of8 (hexPair v) = some v := by
  have h1 := hexDigitVal_hexDigit (v / 16) (by omega)
  have h2 := hexDigitVal_hexDigit (v % 16) (by omega)
  have hval : 16 * (v / 16) + v % 16 = v := by omega
  unfold parseUint16of8 hexPair
  simp [h1, h2, List.foldl, Option.bind, hval]
  omega

/-- `parseHexComponent` maps the 2-digit hex spelling of a byte to its
normalized component. -/
theorem parseHexComponent_hexPair (v : ℕ) (h : v < 256) :
    parseHexComponent (hexPair v) = some (hexNorm v) := by
  unfold parseHexComponent
  rw [parseUint16of8_hexPair v h]
  rfl

/-- `parseColor` on a `#RRGGBB` input returns the three normalized
components. -/
theorem parseColorL_hex_eval (r g b : ℕ) (hr : r < 256) (hg : g < 256) (hb : b < 256) :
    parseColorL (mkHexInput r g b) =
      .ok { R := hexNorm r, G := hexNorm g, B := hexNorm b } := by
  have hlow := goToLower_mkHexInput r g b hr hg hb
  have htrim := trimSpace_mkHexInput r g b hr hg hb
  have hc1 := parseHexComponent_hexPair r hr
  have hc2 := parseHexComponent_hexPair g hg
  have hc3 := parseHexComponent_hexPair b hb
  simp only [parseColorL, goToLower] at hlow ⊢
  rw [hlow, htrim]
  rw [if_neg (by simp [mkHexInput])]
  unfold mkHexInput
  rw [lookupNamed_hash]
  simp only [hexPair, List.cons_append, List.nil_append] at hc1 hc2 hc3 ⊢
  simp [parseColorHex, stripHash, expand3, hc1, hc2, hc3]

/-- C6: for every byte triple (r, g, b), `parseColor` succeeds on the color
string `#rrggbb`, and scaling each returned normalized component back to
0-255 and rounding reproduces the original byte exactly — in particular
within the claimed ±1. -/
theorem parseColor_hex_roundtrip (r g b : ℕ) (hr : r < 256) (hg : g < 256) (hb : b < 256) :
    ∃ col : colorRGB,
      parseColorL (mkHexInput r g b) = .ok col ∧
      goRound (col.R * 255) = r ∧ goRound (col.G * 255) = g ∧ goRound (col.B * 255) = b ∧
      (goRound (col.R * 255) - (r : Int)).natAbs ≤ 1 ∧
      (goRound (col.G * 255) - (g : Int)).natAbs ≤ 1 ∧
      (goRound (col.B * 255) - (b : Int)).natAbs ≤ 1 := by
  refine ⟨{ R := hexNorm r, G := hexNorm g, B := hexNorm b },
    parseColorL_hex_eval r g b hr hg hb, ?_, ?_, ?_, ?_, ?_, ?_⟩
  · exact goRound_hexNorm_roundtrip r hr
  · exact goRound_hexNorm_roundtrip g hg
  · exact goRound_hexNorm_roundtrip b hb
  · rw [goRound_hexNorm_roundtrip r hr]
    simp
  · rw [goRound_hexNorm_roundtrip g hg]
    simp
  · rw [goRound_hexNorm_roundtrip b hb]
    simp

/-- C6 witness: the round-trip theorem at the byte triple (255, 0, 170),
the color `#ff00aa`. -/
theorem parseColor_hex_roundtrip_witness :
    ∃ col : colorRGB,
      parseColorL (mkHexInput 255 0 170) = .ok col ∧
      goRound (col.R * 255) = 255 ∧ goRound (col.G * 255) = 0 ∧ goRound (col.B * 255) = 170 ∧
      (goRound (col.R * 255) - (255 : Int)).natAbs ≤ 1 ∧
      (goRound (col.G * 255) - (0 : Int)).natAbs ≤ 1 ∧
      (goRound (col.B * 255) - (170 : Int)).natAbs ≤ 1 :=
  parseColor_hex_roundtrip 255 0 170 (by decide) (by decide) (by decide)

/-- A dead accumulator stays dead through the fold. -/
theorem foldl_hexStep_none (cs : List Char) : cs.foldl hexStep none = none := by
  induction cs with
  | nil => rfl
  | cons a t ih => simpa [hexStep] using ih

/-- A non-hex character anywhere kills the fold. -/
theorem foldl_hexStep_bad (cs : List Char) (c : Char) (hm : c ∈ cs)
    (hc : hexDigitVal c = none) : ∀ acc, cs.foldl hexStep acc = none := by
  induction cs with
  | nil => cases hm
  | cons a t ih =>
    intro acc
    rcases List.mem_cons.mp hm with rfl | hm2
    · have hstep : hexStep acc c = none := by
        cases acc <;> simp [hexStep, hc]
      rw [List.foldl_cons, hstep, foldl_hexStep_none]
    · rw [List.foldl_cons]
      exact ih hm2 _

/-- `strconv.ParseUint` fails on a string with a non-hex character. -/
theorem parseUint16of8_none (cs : List Char) (c : Char) (hm : c ∈ cs)
    (hc : hexDigitVal c = none) : parseUint16of8 cs = none := by
  have hne : cs ≠ [] := by
    intro h
    rw [h] at hm
    cases hm
  unfold parseUint16of8
  rw [if_neg hne]
  have : cs.foldl hexStep (some 0) = none := foldl_hexStep_bad cs c hm hc (some 0)
  rw [show (fun acc c => acc.bind fun n => (hexDigitVal c).map fun d => 16 * n + d) = hexStep
      from rfl, this]
  rfl

/-- A bad character in any of the three component slices makes the hex stage
fail. -/
theorem parseColorHex_error_of_bad (v value : List Char)
    (hlen : (expand3 (stripHash v)).length = 6)
    (hbad : ∃ c ∈ expand3 (stripHash v), hexDigitVal c = none) :
    ∃ e, parseColorHex v value = .error e := by
  obtain ⟨c, hm, hc⟩ := hbad
  unfold parseColorHex
  rw [if_neg (by simp [hlen])]
  have hsplit : c ∈ (expand3 (stripHash v)).take 2 ∨
      c ∈ ((expand3 (stripHash v)).drop 2).take 2 ∨
      c ∈ ((expand3 (stripHash v)).drop 4).take 2 := by
    have h3 : ((expand3 (stripHash v)).drop 4).take 2 = (expand3 (stripHash v)).drop 4 := by
      apply List.take_of_length_le
      simp [hlen]
    have hdec : expand3 (stripHash v) =
        (expand3 (stripHash v)).take 2 ++ (((expand3 (stripHash v)).drop 2).take 2 ++
          ((expand3 (stripHash v)).drop 2).drop 2) := by
      rw [List.take_append_drop, List.take_append_drop]
    rw [hdec] at hm
    rcases List.mem_append.mp hm with hm1 | hm2
    · exact Or.inl hm1
    · rcases List.mem_append.mp hm2 with hm2a | hm2b
      · exact Or.inr (Or.inl hm2a)
      · refine Or.inr (Or.inr ?_)
        rw [h3]
        rw [List.drop_drop] at hm2b
        simpa using hm2b
  rcases hsplit with hs | hs | hs
  · have h1 : parseHexComponent ((expand3 (stripHash v)).take 2) = none := by
      unfold parseHexComponent
      rw [parseUint16of8_none _ c hs hc]
      rfl
    rw [h1]
    cases parseHexComponent (((expand3 (stripHash v)).drop 2).take 2) <;>
      cases parseHexComponent (((expand3 (stripHash v)).drop 4).take 2) <;>
        exact ⟨_, rfl⟩
  · have h2 : parseHexComponent (((expand3 (stripHash v)).drop 2).take 2) = none := by
      unfold parseHexComponent
      rw [parseUint16of8_none _ c hs hc]
      rfl
    rw [h2]
    cases parseHexComponent ((expand3 (stripHash v)).take 2) <;>
      cases parseHexComponent (((expand3 (stripHash v)).drop 4).take 2) <;>
        exact ⟨_, rfl⟩
  · have h3 : parseHexComponent (((expand3 (stripHash v)).drop 4).take 2) = none := by
      unfold parseHexComponent
      rw [parseUint16of8_none _ c hs hc]
      rfl
    rw [h3]
    cases parseHexComponent ((expand3 (stripHash v)).take 2) <;>
      cases parseHexComponent (((expand3 (stripHash v)).drop 2).take 2) <;>
        exact ⟨_, rfl⟩

/-- C7: `parseColor` lowercases and trims its input before everything else;
whenever the normalized input is empty it errors; whenever the normalized
input is not a named colour and its length after `#`-stripping and
3-character expansion is not 6 it errors with a message carrying the
original input; whenever a non-hex character survives to the component
parser it errors; the 3-character form `f0a` parses identically to
`ff00aa`; and `resolve("")`, `resolve("#12345")`, `resolve("#xyz")` all
fail (the function is total, so no crash is possible). -/
theorem parseColor_error_handling :
    (∀ value : List Char, trimSpace (goToLower value) = [] →
      parseColorL value = .error "valor vazio") ∧
    (∀ value : List Char,
      trimSpace (goToLower value) ≠ [] →
      lookupNamed (trimSpace (goToLower value)) = none →
      (expand3 (stripHash (trimSpace (goToLower value)))).length ≠ 6 →
      parseColorL value = .error ("formato de cor inválido: " ++ String.mk value)) ∧
    (∀ value : List Char,
      trimSpace (goToLower value) ≠ [] →
      lookupNamed (trimSpace (goToLower value)) = none →
      (∃ c ∈ expand3 (stripHash (trimSpace (goToLower value))), hexDigitVal c = none) →
      ∃ e, parseColorL value = .error e) ∧
    parseColorS "f0a" = parseColorS "ff00aa" ∧
    parseColorS "" = .error "valor vazio" ∧
    (∃ e, parseColorS "#12345" = .error e) ∧
    (∃ e, parseColorS "#xyz" = .error e) := by
  refine ⟨?_, ?_, ?_, rfl, rfl, ⟨_, rfl⟩, ⟨_, rfl⟩⟩
  · intro value h
    simp only [parseColorL, h]
    rfl
  · intro value hne hlook hlen
    simp only [parseColorL]
    rw [if_neg hne, hlook]
    unfold parseColorHex
    rw [if_pos hlen]
  · intro value hne hlook hbad
    by_cases hlen : (expand3 (stripHash (trimSpace (goToLower value)))).length = 6
    · obtain ⟨e, he⟩ := parseColorHex_error_of_bad (trimSpace (goToLower value)) value hlen hbad
      refine ⟨e, ?_⟩
      simp only [parseColorL]
      rw [if_neg hne, hlook, he]
    · refine ⟨"formato de cor inválido: " ++ String.mk value, ?_⟩
      simp only [parseColorL]
      rw [if_neg hne, hlook]
      unfold parseColorHex
      rw [if_pos hlen]

/-- C7 witness: the wrong-length case of `parseColor_error_handling` applied
to the concrete input `#12345`. -/
theorem parseColor_error_handling_witness :
    parseColorL ("#12345".toList) = .error ("formato de cor inválido: " ++ String.mk "#12345".toList) :=
  parseColor_error_handling.2.1 "#12345".toList (by decide) (by decide) (by decide)

/-- C10: the named-colour lookup happens before the leading `#` is
stripped: each of the eight recognized names resolves to its fixed RGB
triple, while the same name prefixed with `#` is an error rather than the
named colour. -/
theorem namedColor_lookup_before_hash_strip :
    parseColorS "white" = .ok { R := 1, G := 1, B := 1 } ∧
    parseColorS "black" = .ok { R := 0, G := 0, B := 0 } ∧
    parseColorS "gray" = .ok { R := 0.5, G := 0.5, B := 0.5 } ∧
    parseColorS "grey" = .ok { R := 0.5, G := 0.5, B := 0.5 } ∧
    parseColorS "lightgray" = .ok { R := 0.82, G := 0.82, B := 0.82 } ∧
    parseColorS "lightgrey" = .ok { R := 0.82, G := 0.82, B := 0.82 } ∧
    parseColorS "darkgray" = .ok { R := 0.25, G := 0.25, B := 0.25 } ∧
    parseColorS "darkgrey" = .ok { R := 0.25, G := 0.25, B := 0.25 } ∧
    (∃ e, parseColorS "#white" = .error e) ∧
    (∃ e, parseColorS "#black" = .error e) ∧
    (∃ e, parseColorS "#gray" = .error e) ∧
    (∃ e, parseColorS "#grey" = .error e) ∧
    (∃ e, parseColorS "#lightgray" = .error e) ∧
    (∃ e, parseColorS "#lightgrey" = .error e) ∧
    (∃ e, parseColorS "#darkgray" = .error e) ∧
    (∃ e, parseColorS "#darkgrey" = .error e) :=
  ⟨rfl, rfl, rfl, rfl, rfl, rfl, rfl, rfl,
    ⟨_, rfl⟩, ⟨_, rfl⟩, ⟨_, rfl⟩, ⟨_, rfl⟩, ⟨_, rfl⟩, ⟨_, rfl⟩, ⟨_, rfl⟩, ⟨_, rfl⟩⟩

/-- A colour-override step that returns `ok` leaves the non-colour fields of
the config untouched. -/
theorem applyColorSetting_preserves (setting label : String)
    (set : colorRGB → RenderConfig → RenderConfig)
    (hset : ∀ col cfg, (set col cfg).LineWidth = cfg.LineWidth ∧
      (set col cfg).ShowVertices = cfg.ShowVertices ∧ (set col cfg).ShowLabels = cfg.ShowLabels)
    (cfg cfg' : RenderConfig)
    (h : applyColorSetting setting label set cfg = .ok cfg') :
    cfg'.LineWidth = cfg.LineWidth ∧ cfg'.ShowVertices = cfg.ShowVertices ∧
      cfg'.ShowLabels = cfg.ShowLabels := by
  unfold applyColorSetting at h
  by_cases hs : setting = ""
  · rw [if_pos hs] at h
    cases h
    exact ⟨rfl, rfl, rfl⟩
  · rw [if_neg hs] at h
    cases hp : parseColorS setting with
    | error e =>
      rw [hp] at h
      exact Except.noConfusion h
    | ok col =>
      rw [hp] at h
      cases h
      exact hset col cfg

theorem applyLineWidth_LineWidth (s : RenderSettings) (cfg : RenderConfig) :
    (applyLineWidth s cfg).LineWidth = if s.LineWidth > 0 then s.LineWidth else cfg.LineWidth := by
  unfold applyLineWidth
  split <;> rfl

theorem applyLineWidth_ShowVertices (s : RenderSettings) (cfg : RenderConfig) :
    (applyLineWidth s cfg).ShowVertices = cfg.ShowVertices := by
  unfold applyLineWidth
  split <;> rfl

theorem applyLineWidth_ShowLabels (s : RenderSettings) (cfg : RenderConfig) :
    (applyLineWidth s cfg).ShowLabels = cfg.ShowLabels := by
  unfold applyLineWidth
  split <;> rfl

theorem applyShowVertices_ShowVertices (s : RenderSettings) (cfg : RenderConfig) :
    (applyShowVertices s cfg).ShowVertices = s.ShowVertices.getD cfg.ShowVertices := by
  unfold applyShowVertices
  cases s.ShowVertices <;> rfl

theorem applyShowVertices_LineWidth (s : RenderSettings) (cfg : RenderConfig) :
    (applyShowVertices s cfg).LineWidth = cfg.LineWidth := by
  unfold applyShowVertices
  cases s.ShowVertices <;> rfl

theorem applyShowVertices_ShowLabels (s : RenderSettings) (cfg : RenderConfig) :
    (applyShowVertices s cfg).ShowLabels = cfg.ShowLabels := by
  unfold applyShowVertices
  cases s.ShowVertices <;> rfl

theorem applyShowLabels_ShowLabels (s : RenderSettings) (cfg : RenderConfig) :
    (applyShowLabels s cfg).ShowLabels = s.ShowLabels.getD cfg.ShowLabels := by
  unfold applyShowLabels
  cases s.ShowLabels <;> rfl

theorem applyShowLabels_LineWidth (s : RenderSettings) (cfg : RenderConfig) :
    (applyShowLabels s cfg).LineWidth = cfg.LineWidth := by
  unfold applyShowLabels
  cases s.ShowLabels <;> rfl

theorem applyShowLabels_ShowVertices (s : RenderSettings) (cfg : RenderConfig) :
    (applyShowLabels s cfg).ShowVertices = cfg.ShowVertices := by
  unfold applyShowLabels
  cases s.ShowLabels <;> rfl

/-- C5: the configuration builder starts from the documented defaults —
white background, black lines of width 1, dark-red vertices, both flags off
— and returns them unchanged for a nil figure or nil render settings; when
settings are present and the call succeeds, the line width is the supplied
one exactly when it is positive (otherwise the default), and each boolean is
the supplied value when the tri-state pointer is set and the default when it
is nil. -/
theorem configFromFigure_spec :
    DefaultRenderConfig =
      { Background := { R := 1, G := 1, B := 1 }
        LineColor := { R := 0, G := 0, B := 0 }
        LineWidth := 1.0
        VertexColor := { R := 0.8, G := 0, B := 0 }
        ShowVertices := false
        ShowLabels := false } ∧
    ConfigFromFigure none = .ok DefaultRenderConfig ∧
    (∀ f : Figure, f.Render = none → ConfigFromFigure (some f) = .ok DefaultRenderConfig) ∧
    (∀ f : Figure, ∀ s : RenderSettings, ∀ cfg : RenderConfig,
      f.Render = some s → ConfigFromFigure (some f) = .ok cfg →
      cfg.LineWidth = (if s.LineWidth > 0 then s.LineWidth else DefaultRenderConfig.LineWidth) ∧
      cfg.ShowVertices = s.ShowVertices.getD DefaultRenderConfig.ShowVertices ∧
      cfg.ShowLabels = s.ShowLabels.getD DefaultRenderConfig.ShowLabels) := by
  refine ⟨rfl, rfl, ?_, ?_⟩
  · intro f hR
    simp [ConfigFromFigure, hR]
  · intro f s cfg hR hok
    simp only [ConfigFromFigure, hR] at hok
    split at hok
    next e heq => exact Except.noConfusion hok
    next cfg1 heq1 =>
      split at hok
      next e heq => exact Except.noConfusion hok
      next cfg2 heq2 =>
        split at hok
        next e heq => exact Except.noConfusion hok
        next cfg3 heq3 =>
          cases hok
          have p1 := applyColorSetting_preserves s.Background "cor de fundo inválida: "
            (fun col cfg => { cfg with Background := col })
            (fun _ _ => ⟨rfl, rfl, rfl⟩) _ _ heq1
          have p2 := applyColorSetting_preserves s.LineColor "cor da linha inválida: "
            (fun col cfg => { cfg with LineColor := col })
            (fun _ _ => ⟨rfl, rfl, rfl⟩) _ _ heq2
          have p3 := applyColorSetting_preserves s.VertexColor "cor dos vértices inválida: "
            (fun col cfg => { cfg with VertexColor := col })
            (fun _ _ => ⟨rfl, rfl, rfl⟩) _ _ heq3
          refine ⟨?_, ?_, ?_⟩
          · rw [applyShowLabels_LineWidth, applyShowVertices_LineWidth, applyLineWidth_LineWidth,
              p3.1, p2.1, p1.1]
          · rw [applyShowLabels_ShowVertices, applyShowVertices_ShowVertices,
              applyLineWidth_ShowVertices, p3.2.1, p2.2.1, p1.2.1]
          · rw [applyShowLabels_ShowLabels, applyShowVertices_ShowLabels,
              applyLineWidth_ShowLabels, p3.2.2, p2.2.2, p1.2.2]

/-- C5 witness: `configFromFigure_spec` applied to `figW5` — the negative
line width is ignored, the explicit true is applied, the nil flag keeps its
default. -/
theorem configFromFigure_spec_witness :
    ({ DefaultRenderConfig with ShowVertices := true } : RenderConfig).LineWidth =
      (if settingsW.LineWidth > 0 then settingsW.LineWidth else DefaultRenderConfig.LineWidth) ∧
    ({ DefaultRenderConfig with ShowVertices := true } : RenderConfig).ShowVertices =
      settingsW.ShowVertices.getD DefaultRenderConfig.ShowVertices ∧
    ({ DefaultRenderConfig with ShowVertices := true } : RenderConfig).ShowLabels =
      settingsW.ShowLabels.getD DefaultRenderConfig.ShowLabels :=
  configFromFigure_spec.2.2.2 figW5 settingsW _ rfl (by rfl)

end Figuras

